import Mathlib

/-!
Shallow embedding of the market-data logic of `src/main.py` (Binance P2P
Telegram bot): the number formatter, the P2P offer fetch and selection
pipeline, the CoinGecko symbol cache, and the conversion engine.

Modelling conventions:
* Python numbers (ints and floats) are modelled as exact rationals `ℚ`.
* Python `None` is modelled with `Option`; dictionary lookups with `.get`
  become `Option`-valued functions.
* The network is modelled by a `FetchResult` value: either the request
  raised (network error), or an HTTP response arrived with a status code
  and an optionally JSON-parseable body (already in the shape the code
  expects; `none` models a malformed body).
* Python exceptions that the claims are about (`requests` exceptions,
  `json` decode errors, `ZeroDivisionError`) are modelled explicitly with
  `PyExc` and `Except`.
-/

namespace BinanceP2P

/-! ## Python scalar values and the float literal parser -/

/-- A Python scalar value as it reaches `format_number` in `src/main.py`:
`None`, a number (int or float, modelled as an exact rational), or a
string. -/
inductive PyVal where
| null : PyVal
| num : ℚ → PyVal
| str : String → PyVal
deriving DecidableEq

/-- Value of a digit list read most-significant-first in base 10. -/
def digitsToNat (l : List Char) : ℕ :=
  l.foldl (fun a c => 10 * a + (c.toNat - 48)) 0

/-- Consume an optional leading sign; return whether it was a minus. -/
def parseSign : List Char → Bool × List Char
| '+' :: r => (false, r)
| '-' :: r => (true, r)
| r => (false, r)

/-- Split off a maximal run of decimal digits. -/
def takeDigits (l : List Char) : List Char × List Char :=
  (l.takeWhile Char.isDigit, l.dropWhile Char.isDigit)

/-- Parse the mantissa part of a Python float literal: digits, a decimal
point with digits on at least one side, or both. -/
def parseMantissa (l : List Char) : Option (ℚ × List Char) :=
  let p := takeDigits l
  match p.2 with
  | '.' :: r2 =>
      let q := takeDigits r2
      if p.1.isEmpty ∧ q.1.isEmpty then none
      else some ((digitsToNat p.1 : ℚ) + (digitsToNat q.1 : ℚ) / (10 ^ q.1.length : ℚ), q.2)
  | _ => if p.1.isEmpty then none else some ((digitsToNat p.1 : ℚ), p.2)

/-- Parse an optional exponent part (`e`/`E`, optional sign, digits). -/
def parseExp (l : List Char) : Option (ℤ × List Char) :=
  match l with
  | [] => some (0, [])
  | c :: r =>
      if c = 'e' ∨ c = 'E' then
        let s := parseSign r
        let d := takeDigits s.2
        if d.1.isEmpty then none
        else some ((if s.1 = true then -(digitsToNat d.1 : ℤ) else (digitsToNat d.1 : ℤ)), d.2)
      else some (0, l)

/-- Model of Python `float(s)` restricted to finite decimal literals
(optional sign, digits and decimal point, optional exponent). Returns
`none` when `float(s)` would raise `ValueError`. Whitespace trimming,
underscore separators and the `inf`/`nan` spellings are outside the
modelled fragment. -/
def pyParseFloat (s : String) : Option ℚ :=
  let p0 := parseSign s.toList
  match parseMantissa p0.2 with
  | none => none
  | some m =>
    match parseExp m.2 with
    | none => none
    | some e =>
      if e.2.isEmpty then
        some ((if p0.1 = true then -m.1 else m.1) * (10 : ℚ) ^ e.1)
      else none

/-! ## Fixed-point rendering: the model of the f-string `\x7bfloat(value):,.2f\x7d` -/

/-- Round to the nearest integer, ties to even (the rounding used by
Python fixed-point formatting, idealised over exact rationals). -/
def rndHalfEven (q : ℚ) : ℤ :=
  let f := ⌊q⌋
  let r := q - f
  if r < 1/2 then f
  else if 1/2 < r then f + 1
  else if f % 2 = 0 then f else f + 1

/-- Chunk a least-significant-first digit list into groups of three. -/
def chunk3 (ds : List ℕ) : List (List ℕ) :=
  if h : ds = [] then []
  else ds.take 3 :: chunk3 (ds.drop 3)
termination_by ds.length
decreasing_by
  simp only [List.length_drop]
  have : ds.length ≠ 0 := fun hl => h (List.eq_nil_of_length_eq_zero hl)
  omega

/-- Join character groups with comma separators. -/
def joinComma : List (List Char) → List Char
| [] => []
| [c] => c
| c :: rest => c ++ ',' :: joinComma rest

/-- Decimal rendering of a natural number with thousands separators,
as produced by the `,` flag of a Python format spec. -/
def groupedIntStr (n : ℕ) : String :=
  let ds := if n = 0 then [0] else Nat.digits 10 n
  String.mk (joinComma (((chunk3 ds).map (fun c => c.reverse.map Nat.digitChar)).reverse))

/-- Exactly two decimal digits for a remainder `m < 100`. -/
def twoDigitStr (m : ℕ) : String :=
  String.mk [Nat.digitChar (m / 10), Nat.digitChar (m % 10)]

/-- Model of the Python f-string `\x7bx:,.2f\x7d` over exact rationals:
sign, thousands-grouped integer part, a decimal point and exactly two
decimal digits, rounding half to even at the second decimal. -/
def renderFixed2 (q : ℚ) : String :=
  let n := (rndHalfEven (q * 100)).natAbs
  (if q < 0 then "-" else "") ++ groupedIntStr (n / 100) ++ "." ++ twoDigitStr (n % 100)

/-- `format_number` from `src/main.py` lines 32-38: `None` becomes the
literal `N/A`; values `float` accepts are rendered with the
`\x7b:,.2f\x7d` format; strings `float` rejects are returned unchanged
(the `ValueError` branch returns the input itself). -/
def format_number : PyVal → String
| .null => "N/A"
| .num q => renderFixed2 q
| .str s =>
  match pyParseFloat s with
  | some q => renderFixed2 q
  | none => s

/-- The rendered string ends in a decimal point followed by exactly two
digit characters, and no other decimal point occurs. -/
def hasTwoDecimals (s : String) : Prop :=
  ∃ pre t, s = pre ++ "." ++ t ∧ t.length = 2 ∧
    (∀ c ∈ t.toList, c.isDigit = true) ∧ (∀ c ∈ pre.toList, c ≠ '.')

/-! ## The network boundary -/

/-- The Python exceptions relevant to the modelled code paths.
`requestException` covers `requests.exceptions.RequestException` and its
subclass `HTTPError` raised by `raise_for_status`; `jsonDecodeError`
covers `json.JSONDecodeError` raised by `response.json()`. -/
inductive PyExc where
| requestException : PyExc
| jsonDecodeError : PyExc
| zeroDivisionError : PyExc
deriving DecidableEq

/-- Outcome of one HTTP request, seen from the caller: the request
itself raised, or a response arrived with a status code and a body.
`body = none` models a body `response.json()` cannot parse; `some b`
models a well-formed body already decoded into the expected shape. -/
inductive FetchResult (α : Type) where
| netError : FetchResult α
| httpResponse (status : ℕ) (body : Option α) : FetchResult α
deriving DecidableEq

/-- Semantics of the `requests` call pattern used throughout
`src/main.py`: issue the request, call `raise_for_status()` - which
raises `HTTPError` exactly for client-error (400-499) and server-error
(500-599) statuses, and for no other status - then `response.json()`.
Returns the decoded body or the Python exception the step raises. -/
def httpGetJson {α : Type} (r : FetchResult α) : Except PyExc α :=
  match r with
  | .netError => .error .requestException
  | .httpResponse st body =>
    if 400 ≤ st ∧ st < 600 then .error .requestException
    else
      match body with
      | none => .error .jsonDecodeError
      | some b => .ok b

/-- The exceptions named by the handler
`except (requests.exceptions.RequestException, json.JSONDecodeError)`
shared by `get_p2p_data` (lines 65-67) and `get_coin_list`
(lines 80-83). -/
def caughtByHandler : PyExc → Bool
| .requestException => true
| .jsonDecodeError => true
| .zeroDivisionError => false

/-! ## P2P offers -/

/-- One P2P advertisement as consumed from the search response:
`adv.price`, `adv.minSingleTransAmount`, `adv.maxSingleTransAmount`,
`advertiser.nickName`, `advertiser.monthOrderCount`,
`advertiser.monthFinishRate`. Numeric fields are modelled as exact
rationals. -/
structure Offer where
  price : ℚ
  minSingleTransAmount : ℚ
  maxSingleTransAmount : ℚ
  nickName : String
  monthOrderCount : ℤ
  monthFinishRate : ℚ
deriving DecidableEq

/-- The decoded P2P search response body: a JSON object whose `data`
key, when present, holds the offer list. `data = none` models a
well-formed JSON body without a `data` key. -/
structure P2PResponse where
  data : Option (List Offer)
deriving DecidableEq

/-- `get_p2p_data` from `src/main.py` lines 44-67, with its exception
boundary made explicit: posts the search request for the fixed
USDT/ETB pair (with the given optional `amount` and `tradeType`), and
converts every raised `RequestException` or `JSONDecodeError` into the
return value `None`; any exception not named by the handler would
escape as `.error`. The `amount` and `trade_type` arguments shape the
request payload and do not affect the boundary behaviour. -/
def get_p2p_data (amount : Option ℚ) (trade_type : String) (r : FetchResult P2PResponse) :
    Except PyExc (Option P2PResponse) :=
  match httpGetJson r with
  | .ok b => .ok (some b)
  | .error e => if caughtByHandler e then .ok none else .error e

/-- The value `get_p2p_data` actually returns (it never lets an
exception escape; `get_p2p_data_no_raise` proves the two agree). -/
def get_p2p_data_val (r : FetchResult P2PResponse) : Option P2PResponse :=
  (httpGetJson r).toOption

/-- Reply of the `/p2p` command handler, lines 107-127: either the
failure message `Could not fetch P2P rates at this time.` or the rates
message rendering the listed offers. -/
inductive P2pReply where
| fetchFailedMsg : P2pReply
| ratesMsg (shown : List Offer) : P2pReply
deriving DecidableEq

/-- `p2p_command` lines 107-127 (reply selection only): guard
`if not data or "data" not in data or not data["data"]` sends the
failure message; otherwise the first ten offers (`data["data"][:10]`)
are rendered. -/
def p2p_command (r : FetchResult P2PResponse) : P2pReply :=
  match get_p2p_data_val r with
  | none => .fetchFailedMsg
  | some resp =>
    match resp.data with
    | none => .fetchFailedMsg
    | some l => if l = [] then .fetchFailedMsg else .ratesMsg (l.take 10)

/-- The `p2p` branch of `inline_query`, lines 290-300: guard
`if data and "data" in data` appends one result rendering
`data["data"][:10]` (also when that list is empty); otherwise no
result is produced. -/
def inline_p2p (r : FetchResult P2PResponse) : Option (List Offer) :=
  match get_p2p_data_val r with
  | none => none
  | some resp =>
    match resp.data with
    | none => none
    | some l => some (l.take 10)

/-- Reply of the `/sell` command handler, lines 161-193 (after argument
parsing): the insufficiency message
`Could not fetch enough P2P offers right now.`, the quote built from
the sixth offer, or the generic error reply of the surrounding
`except Exception` handler. -/
inductive SellReply where
| notEnoughOffersMsg : SellReply
| quote (rate totalEtb : ℚ) (seller : String) (orders : ℤ) (completion : ℚ) : SellReply
| genericErrorMsg : SellReply
deriving DecidableEq

/-- `sell_command` lines 172-190 (offer selection and quote): guard
`if not data or "data" not in data or len(data["data"]) < 6` sends the
insufficiency message; otherwise `data["data"][5]` is quoted with
`total_etb = amount * rate` and the completion fraction scaled to a
percentage. An out-of-range index would be absorbed by the surrounding
`except Exception` as the generic error reply. -/
def sell_command (amount : ℚ) (r : FetchResult P2PResponse) : SellReply :=
  match get_p2p_data_val r with
  | none => .notEnoughOffersMsg
  | some resp =>
    match resp.data with
    | none => .notEnoughOffersMsg
    | some l =>
      if l.length < 6 then .notEnoughOffersMsg
      else
        match l.get? 5 with
        | some best =>
          .quote best.price (amount * best.price) best.nickName best.monthOrderCount
            (best.monthFinishRate * 100)
        | none => .genericErrorMsg

/-- The `sell` branch of `inline_query`, lines 319-332 (for the
usdt/etb pair): guard `if data and "data" in data and
len(data["data"]) >= 6` appends one result with
`total_etb = amount * rate` from `data["data"][5]`; otherwise nothing
is appended. Returns the `(total_etb, rate)` pair rendered in the
card. -/
def inline_sell (amount : ℚ) (r : FetchResult P2PResponse) : Option (ℚ × ℚ) :=
  match get_p2p_data_val r with
  | none => none
  | some resp =>
    match resp.data with
    | none => none
    | some l =>
      if 6 ≤ l.length then
        match l.get? 5 with
        | some best => some (amount * best.price, best.price)
        | none => none
      else none

/-! ## Conversion engine -/

/-- The decoded body of the CoinGecko `simple/price` response, as read
by `prices.get(id, \x7b\x7d).get("usd")`: for each identifier either a
usd rate or nothing (identifier absent, or its object lacks the `usd`
key). -/
def Prices : Type := String → Option ℚ

/-- Python division: raises `ZeroDivisionError` on a zero divisor. -/
def pyDiv (a b : ℚ) : Except PyExc ℚ :=
  if b = 0 then .error .zeroDivisionError else .ok (a / b)

/-- Reply of the `/convert` command handler, lines 195-229: the
coins-not-found message, the `Price data not available.` message, the
computed conversion (result and the two unit rates), or the generic
`⚠️ Error while converting.` reply of the surrounding
`except Exception` handler. -/
inductive ConvertReply where
| coinsNotFoundMsg : ConvertReply
| priceUnavailableMsg : ConvertReply
| success (result rate_from_to rate_to_from : ℚ) : ConvertReply
| genericErrorMsg : ConvertReply
deriving DecidableEq

/-- `convert_command` lines 203-229 (after argument parsing), taking
the already-resolved identifiers and the price-fetch outcome: guard
`if not from_id or not to_id` (falsy: `None` or the empty string) sends
the not-found message; the price request uses `raise_for_status` and
`response.json()`, whose exceptions - like any `ZeroDivisionError` from
the three divisions `(amount * from_rate_usd) / to_rate_usd`,
`from_rate_usd / to_rate_usd`, `to_rate_usd / from_rate_usd`, evaluated
in that order - reach the surrounding `except Exception` and become the
generic error reply; the quote availability check is
`if from_rate_usd is None or to_rate_usd is None`. -/
def convert_command (amount : ℚ) (from_id to_id : Option String) (pr : FetchResult Prices) :
    ConvertReply :=
  match from_id, to_id with
  | some f, some t =>
    if f.isEmpty ∨ t.isEmpty then .coinsNotFoundMsg
    else
      match httpGetJson pr with
      | .error _ => .genericErrorMsg
      | .ok prices =>
        match prices f, prices t with
        | some from_rate_usd, some to_rate_usd =>
          match pyDiv (amount * from_rate_usd) to_rate_usd with
          | .error _ => .genericErrorMsg
          | .ok result =>
            match pyDiv from_rate_usd to_rate_usd with
            | .error _ => .genericErrorMsg
            | .ok rate_from_to =>
              match pyDiv to_rate_usd from_rate_usd with
              | .error _ => .genericErrorMsg
              | .ok rate_to_from => .success result rate_from_to rate_to_from
        | _, _ => .priceUnavailableMsg
  | _, _ => .coinsNotFoundMsg

/-- Outcome of the `convert` branch of `inline_query`,
lines 335-354: no result appended, a result card with the computed
amount, or an exception escaping the handler (`inline_query` has no
`try`/`except`). -/
inductive InlineOutcome where
| noResult : InlineOutcome
| result (value : ℚ) : InlineOutcome
| raised (e : PyExc) : InlineOutcome
deriving DecidableEq

/-- The `convert` branch of `inline_query`, lines 339-354: guard
`if from_id and to_id` (truthiness), then a price request WITHOUT
`raise_for_status` (the status code is ignored; only a request failure
or an unparseable body raises, and the exception escapes), then guard
`if from_rate_usd and to_rate_usd` - which rejects `None` and the falsy
rate `0` alike - before the single division
`(amount * from_rate_usd) / to_rate_usd`. -/
def inline_convert (amount : ℚ) (from_id to_id : Option String) (pr : FetchResult Prices) :
    InlineOutcome :=
  match from_id, to_id with
  | some f, some t =>
    if f.isEmpty ∨ t.isEmpty then .noResult
    else
      match pr with
      | .netError => .raised .requestException
      | .httpResponse _ body =>
        match body with
        | none => .raised .jsonDecodeError
        | some prices =>
          match prices f, prices t with
          | some from_rate_usd, some to_rate_usd =>
            if from_rate_usd = 0 ∨ to_rate_usd = 0 then .noResult
            else
              match pyDiv (amount * from_rate_usd) to_rate_usd with
              | .error e => .raised e
              | .ok r => .result r
          | _, _ => .noResult
  | _, _ => .noResult

/-! ## CoinGecko symbol cache -/

/-- One entry of the CoinGecko `coins/list` response: a `symbol` and an
`id`. -/
structure Coin where
  symbol : String
  id : String
deriving DecidableEq

/-- Python `str.lower()` over the ASCII range, modelled directly on the
character list. -/
def strLower (s : String) : String := String.mk (s.toList.map Char.toLower)

/-- The dict comprehension
`\x7bcoin['symbol'].lower(): coin['id'] for coin in data\x7d` of
line 76: an association map from lower-cased symbol to identifier in
which a later listing entry overrides an earlier one with the same
symbol (the list is reversed so that `List.lookup`, which takes the
first hit, returns the last binding of the comprehension). -/
def buildMap (data : List Coin) : List (String × String) :=
  (data.map fun c => (strLower c.symbol, c.id)).reverse

/-- The module-level mutable state of `src/main.py` lines 29-30:
`coin_list_cache` (the symbol map, `[]` modelling the empty dict) and
`last_updated` (an event-loop timestamp in seconds). -/
structure CacheState where
  coin_list_cache : List (String × String)
  last_updated : ℚ
deriving DecidableEq

/-- The initial state: empty cache, `last_updated = 0`. -/
def initState : CacheState := ⟨[], 0⟩

/-- The coin-list request of lines 73-75 seen through the handler of
lines 80-83, which catches exactly `RequestException` and
`JSONDecodeError`: the decoded listing on success, `none` on any
caught failure. -/
def fetchListing (r : FetchResult (List Coin)) : Option (List Coin) :=
  (httpGetJson r).toOption

/-- `get_coin_list` lines 69-84 as a state transition: when the cache
is empty (falsy dict) or older than 86400 seconds, attempt one fetch;
on success replace the whole map and the timestamp, on failure leave
the state untouched and return `None` only if the cache is still
empty. Returns the new state and the returned value. `now` stands for
`asyncio.get_running_loop().time()` (the code reads the clock twice;
both reads are modelled as `now`). -/
def get_coin_list (st : CacheState) (now : ℚ) (r : FetchResult (List Coin)) :
    CacheState × Option (List (String × String)) :=
  if st.coin_list_cache = [] ∨ 86400 < now - st.last_updated then
    match fetchListing r with
    | some data => (⟨buildMap data, now⟩, some (buildMap data))
    | none =>
      if st.coin_list_cache = [] then (st, none) else (st, some st.coin_list_cache)
  else (st, some st.coin_list_cache)

/-- `get_coin_id_from_symbol` lines 86-89: `await get_coin_list()` is
issued ONLY when the cache is empty (its return value is discarded);
the lookup then reads the global map with `.get(symbol.lower())`. -/
def get_coin_id_from_symbol (st : CacheState) (now : ℚ) (r : FetchResult (List Coin))
    (symbol : String) : CacheState × Option String :=
  let st1 := if st.coin_list_cache = [] then (get_coin_list st now r).1 else st
  (st1, st1.coin_list_cache.lookup (strLower symbol))

/-- One interaction touching the cache: a direct `get_coin_list` call
(start-up) or a lookup through `get_coin_id_from_symbol`, each with the
clock value and the fetch outcome the network would produce for it. -/
inductive Event where
| listCall (now : ℚ) (r : FetchResult (List Coin)) : Event
| lookupCall (now : ℚ) (r : FetchResult (List Coin)) (symbol : String) : Event

/-- The fetch outcome carried by an event. -/
def eventFetch : Event → FetchResult (List Coin)
| .listCall _ r => r
| .lookupCall _ r _ => r

/-- Effect of one event on the cache state. -/
def stepState (st : CacheState) : Event → CacheState
| .listCall now r => (get_coin_list st now r).1
| .lookupCall now r s => (get_coin_id_from_symbol st now r s).1

/-- The cache state after a sequence of interactions starting from the
initial empty state. -/
def runEvents (es : List Event) : CacheState :=
  es.foldl stepState initState

/-! ## Helper lemmas for the formatter -/

theorem digitChar_lt10_isDigit (d : ℕ) (h : d < 10) : (Nat.digitChar d).isDigit = true := by
  interval_cases d <;> decide

theorem digitChar_lt10_ne_dot (d : ℕ) (h : d < 10) : Nat.digitChar d ≠ '.' := by
  interval_cases d <;> decide

theorem chunk3_subset : ∀ (n : ℕ) (ds : List ℕ), ds.length ≤ n →
    ∀ c ∈ chunk3 ds, ∀ d ∈ c, d ∈ ds := by
  intro n
  induction n with
  | zero =>
    intro ds h c hc
    have hds : ds = [] := List.eq_nil_of_length_eq_zero (Nat.le_zero.mp h)
    subst hds
    rw [chunk3] at hc
    simp at hc
  | succ n ih =>
    intro ds h c hc d hd
    rw [chunk3] at hc
    split at hc
    · simp at hc
    · rename_i hne
      rcases List.mem_cons.mp hc with rfl | h2
      · exact List.take_subset 3 ds hd
      · have hlen : (ds.drop 3).length ≤ n := by
          have : ds.length ≠ 0 := fun h0 => hne (List.eq_nil_of_length_eq_zero h0)
          simp only [List.length_drop]
          omega
        exact List.drop_subset 3 ds (ih (ds.drop 3) hlen c h2 d hd)

theorem joinComma_mem : ∀ (l : List (List Char)) (c : Char), c ∈ joinComma l →
    c = ',' ∨ ∃ g ∈ l, c ∈ g := by
  intro l
  induction l with
  | nil => intro c hc; simp [joinComma] at hc
  | cons g rest ih =>
    intro c hc
    cases rest with
    | nil =>
      right
      exact ⟨g, List.mem_cons_self g [], hc⟩
    | cons g2 r2 =>
      have heq : joinComma (g :: g2 :: r2) = g ++ ',' :: joinComma (g2 :: r2) := rfl
      rw [heq] at hc
      rcases List.mem_append.mp hc with hg | htail
      · exact Or.inr ⟨g, List.mem_cons_self _ _, hg⟩
      · rcases List.mem_cons.mp htail with rfl | h2
        · exact Or.inl rfl
        · rcases ih c h2 with h3 | ⟨g3, hg3, hcg3⟩
          · exact Or.inl h3
          · exact Or.inr ⟨g3, List.mem_cons_of_mem g hg3, hcg3⟩

theorem groupedIntStr_no_dot (n : ℕ) : ∀ c ∈ (groupedIntStr n).toList, c ≠ '.' := by
  intro c hc
  have hc2 : c = ',' ∨ ∃ g ∈ (((chunk3 (if n = 0 then [0] else Nat.digits 10 n)).map
      (fun c => c.reverse.map Nat.digitChar)).reverse), c ∈ g :=
    joinComma_mem _ c hc
  rcases hc2 with rfl | ⟨g, hg, hcg⟩
  · decide
  · rw [List.mem_reverse, List.mem_map] at hg
    obtain ⟨ch, hch, rfl⟩ := hg
    rw [List.mem_map] at hcg
    obtain ⟨d, hd, rfl⟩ := hcg
    have hd2 : d ∈ (if n = 0 then [0] else Nat.digits 10 n) :=
      chunk3_subset _ _ le_rfl ch hch d (List.mem_reverse.mp hd)
    have hd10 : d < 10 := by
      by_cases h0 : n = 0
      · simp [h0] at hd2; omega
      · simp [h0] at hd2
        exact Nat.digits_lt_base (by norm_num) hd2
    exact digitChar_lt10_ne_dot d hd10

theorem renderFixed2_hasTwoDecimals (q : ℚ) : hasTwoDecimals (renderFixed2 q) := by
  refine ⟨(if q < 0 then "-" else "") ++ groupedIntStr ((rndHalfEven (q * 100)).natAbs / 100),
    twoDigitStr ((rndHalfEven (q * 100)).natAbs % 100), rfl, rfl, ?_, ?_⟩
  · intro c hcmem
    have hmod : (rndHalfEven (q * 100)).natAbs % 100 < 100 := Nat.mod_lt _ (by norm_num)
    have : c = Nat.digitChar ((rndHalfEven (q * 100)).natAbs % 100 / 10) ∨
        c = Nat.digitChar ((rndHalfEven (q * 100)).natAbs % 100 % 10) := by
      simpa [twoDigitStr, String.toList] using hcmem
    rcases this with rfl | rfl
    · exact digitChar_lt10_isDigit _ (by omega)
    · exact digitChar_lt10_isDigit _ (by omega)
  · intro c hcmem
    rw [show ∀ a b : String, (a ++ b).toList = a.toList ++ b.toList from
      fun a b => String.data_append a b] at hcmem
    rcases List.mem_append.mp hcmem with hsign | hgroup
    · by_cases hneg : q < 0
      · simp [hneg] at hsign
        subst hsign
        decide
      · simp [hneg] at hsign
    · exact groupedIntStr_no_dot _ c hgroup

/-! ## Claim theorems -/

/-- C9: `format_number(None)` returns the literal `N/A`; for every
finite numeric value the function is total and renders the
`\x7b:,.2f\x7d` format, whose output ends in a decimal point followed
by exactly two digits (with the thousands-grouped integer part before
it); and every string `float` rejects is returned unchanged, at every
call site, since `format_number` is one uniform function. -/
theorem format_number_spec :
    format_number PyVal.null = "N/A" ∧
    (∀ q : ℚ, format_number (PyVal.num q) = renderFixed2 q ∧ hasTwoDecimals (renderFixed2 q)) ∧
    (∀ s : String, pyParseFloat s = none → format_number (PyVal.str s) = s) := by
  refine ⟨rfl, fun q => ⟨rfl, renderFixed2_hasTwoDecimals q⟩, fun s hs => ?_⟩
  simp [format_number, hs]

/-- Witness for C9 at concrete inputs: the non-numeric string `N/A`
passes through unchanged, and a numeric rendering has the two-decimal
shape. -/
theorem format_number_spec_witness :
    format_number (PyVal.str "N/A") = "N/A" ∧ hasTwoDecimals (renderFixed2 (1/2)) :=
  ⟨format_number_spec.2.2 "N/A" (by decide), (format_number_spec.2.1 (1/2)).2⟩

/-- C6 counterexample: a 304 response - non-2xx - with a well-formed
body is NOT converted into the fetch-failed outcome `None`:
`raise_for_status` raises only for 400-599, so the parsed body is
returned as a success. -/
theorem non2xx_not_failure_cex :
    get_p2p_data none "BUY" (FetchResult.httpResponse 304 (some ⟨some []⟩)) =
      Except.ok (some ⟨some []⟩) ∧
    get_p2p_data_val (FetchResult.httpResponse 304 (some ⟨some []⟩)) ≠ none := by
  constructor
  · have h : ¬ (400 ≤ 304 ∧ 304 < 600) := by omega
    simp [get_p2p_data, httpGetJson, h]
  · have h : ¬ (400 ≤ 304 ∧ 304 < 600) := by omega
    simp [get_p2p_data_val, httpGetJson, Except.toOption, h]

/-- C6 amended: for every request input and transport outcome,
`get_p2p_data` returns normally (never lets an exception escape its
boundary), its value agreeing with `get_p2p_data_val`; and the
returned value is the failure outcome `None` exactly on a network
error, a 4xx/5xx status, or a malformed body - a response with any
other status whose body parses is returned as success, because
`raise_for_status` raises only for statuses 400-599. -/
theorem get_p2p_data_no_raise (amount : Option ℚ) (trade_type : String)
    (r : FetchResult P2PResponse) :
    get_p2p_data amount trade_type r = Except.ok (get_p2p_data_val r) ∧
    (get_p2p_data_val r = none ↔
      r = FetchResult.netError ∨
        ∃ st body, r = FetchResult.httpResponse st body ∧
          ((400 ≤ st ∧ st < 600) ∨ body = none)) := by
  cases r with
  | netError =>
    exact ⟨rfl, by simp [get_p2p_data_val, httpGetJson, Except.toOption]⟩
  | httpResponse st body =>
    constructor
    · by_cases h : 400 ≤ st ∧ st < 600 <;> cases body <;>
        simp [get_p2p_data, get_p2p_data_val, httpGetJson, caughtByHandler, Except.toOption, h]
    · have hval : get_p2p_data_val (FetchResult.httpResponse st body) = none ↔
          ((400 ≤ st ∧ st < 600) ∨ body = none) := by
        by_cases h : 400 ≤ st ∧ st < 600 <;> cases body <;>
          simp [get_p2p_data_val, httpGetJson, Except.toOption, h]
      rw [hval]
      constructor
      · intro h2
        exact Or.inr ⟨st, body, rfl, h2⟩
      · rintro (h2 | ⟨st2, b2, heq, h2⟩)
        · exact FetchResult.noConfusion h2
        · injection heq with h3 h4
          subst h3
          subst h4
          exact h2

/-- C5: with a successful fetch, the `/sell` selection takes the offer
at index 5 (the sixth offer in provider order) whenever at least six
offers exist, and replies with the insufficient-offers message when
fewer than six exist; the inline `sell` branch does the same, producing
no result instead of the message. -/
theorem conservative_offer_skip5 (amount : ℚ) (l : List Offer) :
    (l.length < 6 →
      sell_command amount (FetchResult.httpResponse 200 (some ⟨some l⟩)) =
        SellReply.notEnoughOffersMsg ∧
      inline_sell amount (FetchResult.httpResponse 200 (some ⟨some l⟩)) = none) ∧
    (6 ≤ l.length → ∃ o, l.get? 5 = some o ∧
      sell_command amount (FetchResult.httpResponse 200 (some ⟨some l⟩)) =
        SellReply.quote o.price (amount * o.price) o.nickName o.monthOrderCount
          (o.monthFinishRate * 100) ∧
      inline_sell amount (FetchResult.httpResponse 200 (some ⟨some l⟩)) =
        some (amount * o.price, o.price)) := by
  constructor
  · intro h
    have h2 : ¬ 6 ≤ l.length := by omega
    constructor
    · simp [sell_command, get_p2p_data_val, httpGetJson, Except.toOption, h]
    · simp [inline_sell, get_p2p_data_val, httpGetJson, Except.toOption, h2]
  · intro h
    have h5 : 5 < l.length := by omega
    refine ⟨l.get ⟨5, h5⟩, List.get?_eq_get h5, ?_, ?_⟩
    · simp [sell_command, get_p2p_data_val, httpGetJson, Except.toOption,
        Nat.not_lt.mpr h, List.getElem?_eq_getElem h5]
    · simp [inline_sell, get_p2p_data_val, httpGetJson, Except.toOption, h,
        List.getElem?_eq_getElem h5]

/-- Witness for C5: on a concrete six-offer list the sixth offer (index
5, price 6) is quoted, and on its five-offer prefix the
insufficient-offers message is produced. -/
theorem conservative_offer_skip5_witness :
    sell_command 2 (FetchResult.httpResponse 200 (some ⟨some
      [⟨1, 0, 0, "a", 1, 1⟩, ⟨2, 0, 0, "b", 1, 1⟩, ⟨3, 0, 0, "c", 1, 1⟩,
       ⟨4, 0, 0, "d", 1, 1⟩, ⟨5, 0, 0, "e", 1, 1⟩, ⟨6, 0, 0, "f", 1, 1⟩]⟩)) =
      SellReply.quote 6 12 "f" 1 100 ∧
    sell_command 2 (FetchResult.httpResponse 200 (some ⟨some
      [⟨1, 0, 0, "a", 1, 1⟩, ⟨2, 0, 0, "b", 1, 1⟩, ⟨3, 0, 0, "c", 1, 1⟩,
       ⟨4, 0, 0, "d", 1, 1⟩, ⟨5, 0, 0, "e", 1, 1⟩]⟩)) =
      SellReply.notEnoughOffersMsg := by
  constructor
  · obtain ⟨o, ho, hs, -⟩ := (conservative_offer_skip5 2
      [⟨1, 0, 0, "a", 1, 1⟩, ⟨2, 0, 0, "b", 1, 1⟩, ⟨3, 0, 0, "c", 1, 1⟩,
       ⟨4, 0, 0, "d", 1, 1⟩, ⟨5, 0, 0, "e", 1, 1⟩, ⟨6, 0, 0, "f", 1, 1⟩]).2 (by decide)
    have ho2 : o = (⟨6, 0, 0, "f", 1, 1⟩ : Offer) := by
      have := ho.symm.trans (rfl : ([⟨1, 0, 0, "a", 1, 1⟩, ⟨2, 0, 0, "b", 1, 1⟩,
        ⟨3, 0, 0, "c", 1, 1⟩, ⟨4, 0, 0, "d", 1, 1⟩, ⟨5, 0, 0, "e", 1, 1⟩,
        ⟨6, 0, 0, "f", 1, 1⟩] : List Offer).get? 5 = some ⟨6, 0, 0, "f", 1, 1⟩)
      exact Option.some.inj this
    rw [hs, ho2]
    norm_num
  · exact ((conservative_offer_skip5 2
      [⟨1, 0, 0, "a", 1, 1⟩, ⟨2, 0, 0, "b", 1, 1⟩, ⟨3, 0, 0, "c", 1, 1⟩,
       ⟨4, 0, 0, "d", 1, 1⟩, ⟨5, 0, 0, "e", 1, 1⟩]).1 (by decide)).1

/-- C4 counterexample: a 2xx response whose well-formed body carries an
EMPTY `data` list makes `p2p_command` send the very same
could-not-fetch reply it sends on a network error - the empty offer
list IS reported with the fetch-failure message, contrary to the
claim. -/
theorem empty_offerlist_cex :
    p2p_command (FetchResult.httpResponse 200 (some ⟨some []⟩)) = P2pReply.fetchFailedMsg ∧
    p2p_command (FetchResult.httpResponse 200 (some ⟨some []⟩)) =
      p2p_command FetchResult.netError := by
  decide

/-- C4 amended: at the fetch boundary an empty offer list is a success
outcome distinguishable from a fetch failure - `get_p2p_data` returns
the parsed body (not `None`) - and slicing the empty list yields an
empty list, which the inline `p2p` branch renders as a success with
zero offers; the `/p2p` command handler, however, reports a
present-but-empty `data` list with the same fetch-failure message it
uses for a failed fetch. -/
theorem empty_offerlist_boundary (b : P2PResponse) (hb : b.data = some []) :
    get_p2p_data_val (FetchResult.httpResponse 200 (some b)) = some b ∧
    inline_p2p (FetchResult.httpResponse 200 (some b)) = some [] ∧
    p2p_command (FetchResult.httpResponse 200 (some b)) = P2pReply.fetchFailedMsg ∧
    p2p_command FetchResult.netError = P2pReply.fetchFailedMsg := by
  refine ⟨?_, ?_, ?_, rfl⟩
  · simp [get_p2p_data_val, httpGetJson, Except.toOption]
  · simp [inline_p2p, get_p2p_data_val, httpGetJson, Except.toOption, hb]
  · simp [p2p_command, get_p2p_data_val, httpGetJson, Except.toOption, hb]

/-- Witness for the amended C4 at the concrete empty-list body. -/
theorem empty_offerlist_boundary_witness :
    get_p2p_data_val (FetchResult.httpResponse 200 (some ⟨some []⟩)) = some ⟨some []⟩ ∧
    inline_p2p (FetchResult.httpResponse 200 (some ⟨some []⟩)) = some [] ∧
    p2p_command (FetchResult.httpResponse 200 (some ⟨some []⟩)) = P2pReply.fetchFailedMsg ∧
    p2p_command FetchResult.netError = P2pReply.fetchFailedMsg :=
  empty_offerlist_boundary ⟨some []⟩ rfl

/-- C1 counterexample: with the destination quote available and equal
to 0.5 but the reference asset (tether) itself quoted at 2, the command
returns `amount * q_usdt / q_to = 400`, not `amount / q_to = 200` -
there is no direct-quote path; the usdt quote always participates. -/
theorem convert_usdt_direct_quote_cex :
    convert_command 100 (some "tether") (some "the-open-network")
      (FetchResult.httpResponse 200 (some (fun s =>
        if s = "tether" then some 2
        else if s = "the-open-network" then some (1/2) else none))) =
      ConvertReply.success 400 4 (1/4) ∧
    (400 : ℚ) ≠ 100 / (1/2 : ℚ) := by
  constructor
  · have e1 : "tether".isEmpty = false := rfl
    have e2 : "the-open-network".isEmpty = false := rfl
    have e3 : ((1 : ℚ)/2) ≠ 0 := by norm_num
    have e4 : (2 : ℚ) ≠ 0 := by norm_num
    simp [convert_command, httpGetJson, pyDiv, e1, e2, e3, e4]
    norm_num
  · norm_num

/-- C1 amended: a conversion from `usdt` runs the same triangulated
path as any other pair - both quotes (the reference asset's own
included) are fetched in one batched request and the result is
`amount * q_usdt / q_to`; this equals `amount / q_to` exactly when the
usdt quote is 1, so `convert(100, "usdt", "ton")` with usdt quoted at 1
and ton at 0.5 yields 200. -/
theorem convert_from_usdt_triangulated (amount qu q : ℚ) (uid tid : String) (pr : Prices)
    (hu : uid.isEmpty = false) (ht : tid.isEmpty = false)
    (hpu : pr uid = some qu) (hpt : pr tid = some q)
    (hqu : qu ≠ 0) (hq : q ≠ 0) :
    convert_command amount (some uid) (some tid) (FetchResult.httpResponse 200 (some pr)) =
      ConvertReply.success (amount * qu / q) (qu / q) (q / qu) ∧
    (qu = 1 → amount * qu / q = amount / q) := by
  constructor
  · simp [convert_command, httpGetJson, hu, ht, hpu, hpt, pyDiv, hqu, hq]
  · intro h1
    rw [h1, mul_one]

/-- Witness for the amended C1: with usdt quoted at 1 and the
destination at 0.5, converting 100 usdt yields 200 with unit rates 2
and 0.5. -/
theorem convert_from_usdt_triangulated_witness :
    convert_command 100 (some "tether") (some "the-open-network")
      (FetchResult.httpResponse 200 (some (fun s =>
        if s = "tether" then some 1
        else if s = "the-open-network" then some (1/2) else none))) =
      ConvertReply.success 200 2 (1/2) := by
  have h := (convert_from_usdt_triangulated 100 1 (1/2) "tether" "the-open-network"
    (fun s => if s = "tether" then some 1
      else if s = "the-open-network" then some (1/2) else none)
    rfl rfl (by simp) (by simp) (by norm_num) (by norm_num)).1
  rw [h]
  norm_num

/-- C3 counterexample: both reference-asset quotes are available (their
fields are present: 0 for the source, 1 for the destination), yet the
command does not return the triangulated result with unit-rate product
1 - the division `to_rate_usd / from_rate_usd` raises
`ZeroDivisionError`, absorbed as the generic error reply. -/
theorem convert_rate_product_cex :
    convert_command 1 (some "bitcoin") (some "ethereum")
      (FetchResult.httpResponse 200 (some (fun s =>
        if s = "bitcoin" then some 0
        else if s = "ethereum" then some 1 else none))) =
      ConvertReply.genericErrorMsg := by
  have e1 : "bitcoin".isEmpty = false := rfl
  have e2 : "ethereum".isEmpty = false := rfl
  have e3 : (1 : ℚ) ≠ 0 := by norm_num
  simp [convert_command, httpGetJson, pyDiv, e1, e2, e3]

/-- C3 amended: for any pair (the path does not depend on whether a
side is the reference asset), when both reference-asset quotes are
available AND nonzero, one batched request yields
`result = amount * R_from / R_to` with unit rates `R_from / R_to` and
`R_to / R_from`, whose product is exactly 1 in rational arithmetic. -/
theorem convert_triangulation_nonzero (amount fr tr : ℚ) (f t : String) (pr : Prices)
    (hf : f.isEmpty = false) (ht : t.isEmpty = false)
    (hpf : pr f = some fr) (hpt : pr t = some tr)
    (hfr : fr ≠ 0) (htr : tr ≠ 0) :
    convert_command amount (some f) (some t) (FetchResult.httpResponse 200 (some pr)) =
      ConvertReply.success (amount * fr / tr) (fr / tr) (tr / fr) ∧
    (fr / tr) * (tr / fr) = 1 := by
  constructor
  · simp [convert_command, httpGetJson, hf, ht, hpf, hpt, pyDiv, hfr, htr]
  · rw [div_mul_div_comm, mul_comm tr fr]
    exact div_self (mul_ne_zero hfr htr)

/-- Witness for the amended C3: converting 1 btc (quoted 30000) to eth
(quoted 2000) yields 15 with unit rates 15 and 1/15. -/
theorem convert_triangulation_nonzero_witness :
    convert_command 1 (some "bitcoin") (some "ethereum")
      (FetchResult.httpResponse 200 (some (fun s =>
        if s = "bitcoin" then some 30000
        else if s = "ethereum" then some 2000 else none))) =
      ConvertReply.success 15 15 (1/15) := by
  have h := (convert_triangulation_nonzero 1 30000 2000 "bitcoin" "ethereum"
    (fun s => if s = "bitcoin" then some 30000
      else if s = "ethereum" then some 2000 else none)
    rfl rfl (by simp) (by simp) (by norm_num) (by norm_num)).1
  rw [h]
  norm_num

/-- C10: a destination quote present but equal to exactly 0 passes the
command path's `is None` availability check, the division then raises
`ZeroDivisionError` which the surrounding generic handler absorbs (the
reply is the generic error, not `Price data not available.`); the
inline path's truthiness check rejects the falsy quote 0, and the
inline branch can never raise a `ZeroDivisionError` at all. -/
theorem zero_quote_path_divergence (amount fr : ℚ) (f t : String) (pr : Prices)
    (hf : f.isEmpty = false) (ht : t.isEmpty = false)
    (hpf : pr f = some fr) (hpt : pr t = some 0) :
    convert_command amount (some f) (some t) (FetchResult.httpResponse 200 (some pr)) =
      ConvertReply.genericErrorMsg ∧
    convert_command amount (some f) (some t) (FetchResult.httpResponse 200 (some pr)) ≠
      ConvertReply.priceUnavailableMsg ∧
    inline_convert amount (some f) (some t) (FetchResult.httpResponse 200 (some pr)) =
      InlineOutcome.noResult ∧
    (∀ (a2 : ℚ) (fi ti : Option String) (pr2 : FetchResult Prices),
      inline_convert a2 fi ti pr2 ≠ InlineOutcome.raised PyExc.zeroDivisionError) := by
  have h1 : convert_command amount (some f) (some t)
      (FetchResult.httpResponse 200 (some pr)) = ConvertReply.genericErrorMsg := by
    simp [convert_command, httpGetJson, hf, ht, hpf, hpt, pyDiv]
  refine ⟨h1, by rw [h1]; simp, ?_, ?_⟩
  · simp [inline_convert, hf, ht, hpf, hpt]
  · intro a2 fi ti pr2
    cases fi with
    | none => simp [inline_convert]
    | some f2 =>
      cases ti with
      | none => simp [inline_convert]
      | some t2 =>
        simp only [inline_convert]
        split
        · simp
        · cases pr2 with
          | netError => simp
          | httpResponse st2 body2 =>
            cases body2 with
            | none => simp
            | some prices2 =>
              rcases hf2 : prices2 f2 with _ | fr2 <;> rcases ht2 : prices2 t2 with _ | tr2 <;>
                simp [hf2, ht2]
              split
              · simp
              · rename_i hz
                have htr2 : ¬ tr2 = 0 := fun h0 => hz (Or.inr h0)
                simp [pyDiv, htr2]

/-- Witness for C10: with the source quoted at 1 and the destination
quote present but 0, the command replies with the generic error while
the inline branch produces no result. -/
theorem zero_quote_path_divergence_witness :
    convert_command 100 (some "bitcoin") (some "the-open-network")
      (FetchResult.httpResponse 200 (some (fun s =>
        if s = "bitcoin" then some 1
        else if s = "the-open-network" then some 0 else none))) =
      ConvertReply.genericErrorMsg ∧
    inline_convert 100 (some "bitcoin") (some "the-open-network")
      (FetchResult.httpResponse 200 (some (fun s =>
        if s = "bitcoin" then some 1
        else if s = "the-open-network" then some 0 else none))) =
      InlineOutcome.noResult := by
  have h := zero_quote_path_divergence 100 1 "bitcoin" "the-open-network"
    (fun s => if s = "bitcoin" then some 1
      else if s = "the-open-network" then some 0 else none)
    rfl rfl (by simp) (by simp)
  exact ⟨h.1, h.2.2.1⟩

/-- C7: a failed symbol-listing refresh leaves the cached map and its
timestamp completely unchanged; `get_coin_list` returns the failure
value `None` exactly when the cache was already empty; and lookups
through `get_coin_id_from_symbol` keep resolving from the previously
cached data, which the failure never disturbs. -/
theorem refresh_failure_atomic (st : CacheState) (now : ℚ) (r : FetchResult (List Coin))
    (hfail : fetchListing r = none) :
    (get_coin_list st now r).1 = st ∧
    ((get_coin_list st now r).2 = none ↔ st.coin_list_cache = []) ∧
    (∀ symbol, (get_coin_id_from_symbol st now r symbol).1 = st ∧
      (get_coin_id_from_symbol st now r symbol).2 =
        st.coin_list_cache.lookup (strLower symbol)) := by
  by_cases hc : st.coin_list_cache = []
  · have h1 : get_coin_list st now r = (st, none) := by
      simp [get_coin_list, hc, hfail]
    refine ⟨by rw [h1], by rw [h1]; simp [hc], fun s => ?_⟩
    constructor
    · simp [get_coin_id_from_symbol, hc, h1]
    · simp [get_coin_id_from_symbol, hc, h1]
  · have h1 : get_coin_list st now r = (st, some st.coin_list_cache) := by
      by_cases hs : 86400 < now - st.last_updated
      · simp [get_coin_list, hc, hs, hfail]
      · simp [get_coin_list, hc, hs]
    refine ⟨by rw [h1], by rw [h1]; simp [hc], fun s => ?_⟩
    constructor
    · simp [get_coin_id_from_symbol, hc]
    · simp [get_coin_id_from_symbol, hc]

/-- Witness for C7: a non-empty stale cache survives a failed refresh
(network error) untouched, and the lookup for `BTC` still resolves from
the retained data. -/
theorem refresh_failure_atomic_witness :
    (get_coin_list ⟨[("btc", "bitcoin")], 0⟩ 100000 FetchResult.netError).1 =
      (⟨[("btc", "bitcoin")], 0⟩ : CacheState) ∧
    (get_coin_id_from_symbol ⟨[("btc", "bitcoin")], 0⟩ 100000 FetchResult.netError "BTC").2 =
      some "bitcoin" := by
  have h := refresh_failure_atomic ⟨[("btc", "bitcoin")], 0⟩ 100000 FetchResult.netError rfl
  refine ⟨h.1, ?_⟩
  rw [(h.2.2 "BTC").2]
  decide

/-- C2 (exhibiting the divergence): with a non-empty cache whose last
refresh is 100000 seconds old (far beyond 24 hours) and a fetch that
would succeed with a fresh listing containing `eth`,
`get_coin_id_from_symbol` performs NO refresh - the state is returned
unchanged and the lookup misses - even though a direct `get_coin_list`
call on the very same state and fetch would have replaced the cache
(its staleness branch is live, but lookups only invoke it on an empty
cache). -/
theorem stale_cache_lookup_no_refresh :
    (get_coin_id_from_symbol ⟨[("btc", "bitcoin")], 0⟩ 100000
      (FetchResult.httpResponse 200 (some [⟨"BTC", "bitcoin"⟩, ⟨"ETH", "ethereum"⟩])) "eth") =
      (⟨[("btc", "bitcoin")], 0⟩, none) ∧
    (get_coin_list ⟨[("btc", "bitcoin")], 0⟩ 100000
      (FetchResult.httpResponse 200 (some [⟨"BTC", "bitcoin"⟩, ⟨"ETH", "ethereum"⟩]))).1 =
      ⟨[("eth", "ethereum"), ("btc", "bitcoin")], 100000⟩ := by
  constructor
  · have hc : ([("btc", "bitcoin")] : List (String × String)) ≠ [] := by simp
    simp [get_coin_id_from_symbol, hc]
    decide
  · have hs : (86400 : ℚ) < 100000 - 0 := by norm_num
    have hs2 : (86400 : ℚ) < 100000 := by norm_num
    simp [get_coin_list, hs, hs2, fetchListing, httpGetJson, Except.toOption, buildMap]
    decide

/-- C8: the cache evolves atomically - every interaction either leaves
the map untouched or replaces it wholesale with the map built from that
interaction's successful bulk fetch - and consequently every state
reachable from the initial empty state holds either the empty map or
exactly the full map built from one successful listing fetch; no
partial or merged map ever occurs. -/
theorem cache_atomic_invariant :
    (∀ (st : CacheState) (e : Event),
      (stepState st e).coin_list_cache = st.coin_list_cache ∨
      ∃ data, fetchListing (eventFetch e) = some data ∧
        (stepState st e).coin_list_cache = buildMap data) ∧
    (∀ es : List Event, (runEvents es).coin_list_cache = [] ∨
      ∃ data, (runEvents es).coin_list_cache = buildMap data) := by
  have hstep : ∀ (st : CacheState) (e : Event),
      (stepState st e).coin_list_cache = st.coin_list_cache ∨
      ∃ data, fetchListing (eventFetch e) = some data ∧
        (stepState st e).coin_list_cache = buildMap data := by
    intro st e
    cases e with
    | listCall now r =>
      by_cases hcond : st.coin_list_cache = [] ∨ 86400 < now - st.last_updated
      · rcases hfetch : fetchListing r with _ | data
        · left
          simp only [stepState, eventFetch, get_coin_list, if_pos hcond, hfetch]
          by_cases hc2 : st.coin_list_cache = [] <;> simp [hc2]
        · right
          refine ⟨data, hfetch, ?_⟩
          simp [stepState, eventFetch, get_coin_list, if_pos hcond, hfetch]
      · left
        simp [stepState, get_coin_list, if_neg hcond]
    | lookupCall now r s =>
      by_cases hc : st.coin_list_cache = []
      · rcases hfetch : fetchListing r with _ | data
        · left
          simp [stepState, get_coin_id_from_symbol, hc, get_coin_list, hfetch]
        · right
          refine ⟨data, hfetch, ?_⟩
          simp [stepState, get_coin_id_from_symbol, hc, get_coin_list, hfetch]
      · left
        simp [stepState, get_coin_id_from_symbol, hc]
  have hinv : ∀ (es : List Event) (st : CacheState),
      (st.coin_list_cache = [] ∨ ∃ d, st.coin_list_cache = buildMap d) →
      ((es.foldl stepState st).coin_list_cache = [] ∨
        ∃ d, (es.foldl stepState st).coin_list_cache = buildMap d) := by
    intro es
    induction es with
    | nil => intro st h; exact h
    | cons e rest ih =>
      intro st h
      apply ih
      rcases hstep st e with heq | ⟨d, _, heq⟩
      · rw [heq]; exact h
      · exact Or.inr ⟨d, heq⟩
  exact ⟨hstep, fun es => hinv es initState (Or.inl rfl)⟩

end BinanceP2P
